import Mathlib

/-!
# A formal model of the boundary-tag allocator (mm.c)

This file embeds the C allocator of the repository (explicit free list,
boundary tags, first-fit with a repeat-pattern escape) into Lean 4 and
settles the specification claims against it.

Modelling conventions:
* The machine is the 64-bit platform the source describes
  (`WSIZE = sizeof(void *) = 8`, `DSIZE = 16`).
* Memory is a total function from byte addresses to 64-bit words; the
  allocator only ever reads and writes word-aligned cells, and a write at
  address `p` models `*(uintptr_t *)p = v`.  Unwritten memory reads as 0
  (the region provider hands out fresh zeroed pages).
* `size_t` arithmetic wraps modulo 2^64 exactly where the C does;
  conversions to `int` truncate to 32 bits and reinterpret as signed.
* Pointers are natural numbers; the null pointer is 0.  The region
  provider (`mem_sbrk`, external to the repository, spec section 6) grows a
  contiguous range and returns the old break, or the sentinel 2^64-1
  ("(void *)-1") when its capacity is exhausted.
-/

namespace MM

set_option maxRecDepth 1000000

set_option maxHeartbeats 2000000

/-- 2^64, the modulus of `size_t` / `uintptr_t` arithmetic. -/
def M64 : Nat := 2 ^ 64

/-- `WSIZE = sizeof(void *)`: word and header/footer size in bytes. -/
def WSIZE : Nat := 8

/-- `DSIZE = 2 * WSIZE`: double word size in bytes. -/
def DSIZE : Nat := 16

/-- `CHUNKSIZE = 1 << 12`: default heap extension in bytes. -/
def CHUNKSIZE : Nat := 4096

/-- 64-bit wrapping subtraction: `a - b` in `size_t` arithmetic
(for `a, b < 2^64`). -/
def wsub (a b : Nat) : Nat := (a + (M64 - b % M64)) % M64

/-- 64-bit wrapping addition. -/
def wadd (a b : Nat) : Nat := (a + b) % M64

/-- C conversion of an unsigned 64-bit value to a 32-bit signed `int`:
truncate to the low 32 bits and reinterpret. -/
def toInt32 (n : Nat) : Int :=
  let r : Nat := n % 2 ^ 32
  if r < 2 ^ 31 then (r : Int) else (r : Int) - 2 ^ 32

/-- Allocator state: memory plus the region-provider break/capacity and the
globals of the program and the static locals of `find_fit`. -/
structure AState where
  mem : Nat → Nat
  brk : Nat
  cap : Nat
  heap_listp : Nat
  free_list_start : Nat
  last_malloced_size : Int
  repeat_counter : Int

/-- `GET(p)`: read the 64-bit word at address `p` (a C read always yields a
value below 2^64, so the model masks on read). -/
def GET (s : AState) (p : Nat) : Nat := s.mem p % M64

/-- `PUT(p, val)`: write the word `val` at address `p`. -/
def PUT (s : AState) (p v : Nat) : AState :=
  { s with mem := fun q => if q = p then v % M64 else s.mem q }

/-- `PACK(size, alloc) = (size) | (alloc)`. -/
def PACK (size alloc : Nat) : Nat := Nat.lor size alloc

/-- `GET_SIZE(p) = GET(p) & ~(DSIZE - 1)`: clear the low 4 bits. -/
def GET_SIZE (s : AState) (p : Nat) : Nat := GET s p - GET s p % DSIZE

/-- `GET_ALLOC(p) = GET(p) & 0x1`. -/
def GET_ALLOC (s : AState) (p : Nat) : Nat := GET s p % 2

/-- `HDRP(bp) = bp - WSIZE`. -/
def HDRP (bp : Nat) : Nat := wsub bp WSIZE

/-- `FTRP(bp) = bp + GET_SIZE(HDRP(bp)) - DSIZE`. -/
def FTRP (s : AState) (bp : Nat) : Nat :=
  wsub (wadd bp (GET_SIZE s (HDRP bp))) DSIZE

/-- `NEXT_BLK(bp) = bp + GET_SIZE(HDRP(bp))`. -/
def NEXT_BLK (s : AState) (bp : Nat) : Nat := wadd bp (GET_SIZE s (HDRP bp))

/-- `PREV_BLK(bp) = bp - GET_SIZE(bp - DSIZE)`. -/
def PREV_BLK (s : AState) (bp : Nat) : Nat :=
  wsub bp (GET_SIZE s (wsub bp DSIZE))

/-- `GET_NEXT_PTR(bp) = *(char **)(bp + WSIZE)`. -/
def GET_NEXT_PTR (s : AState) (bp : Nat) : Nat := GET s (wadd bp WSIZE)

/-- `GET_PREV_PTR(bp) = *(char **)(bp)`. -/
def GET_PREV_PTR (s : AState) (bp : Nat) : Nat := GET s bp

/-- `SET_NEXT_PTR(bp, qp)`. -/
def SET_NEXT_PTR (s : AState) (bp qp : Nat) : AState := PUT s (wadd bp WSIZE) qp

/-- `SET_PREV_PTR(bp, qp)`. -/
def SET_PREV_PTR (s : AState) (bp qp : Nat) : AState := PUT s bp qp

/-- Modelled from the spec: the `mem_sbrk` interface of the region provider (spec section 6;
the provider is external to the repository, only `memlib.h` declares it).
Grows the contiguous region by `incr` bytes and returns the address of the
first newly added byte, or the failure sentinel `(void *)-1 = 2^64-1` when
the capacity is exhausted.  Fresh memory reads as zero. -/
def mem_sbrk (s : AState) (incr : Nat) : Nat × AState :=
  if s.brk + incr ≤ s.cap then (s.brk, { s with brk := s.brk + incr })
  else (M64 - 1, s)

/-- `insert_in_free_list(bp)`: LIFO push at `free_list_start`
(lines 366-371, statement by statement). -/
def insert_in_free_list (s : AState) (bp : Nat) : AState :=
  let s1 := SET_NEXT_PTR s bp s.free_list_start
  let s2 := SET_PREV_PTR s1 s1.free_list_start bp
  let s3 := SET_PREV_PTR s2 bp 0
  { s3 with free_list_start := bp }

/-- `remove_from_free_list(bp)` (lines 373-379): unlink `bp`; the C macros
re-read memory at every use, so each statement reads the state left by the
previous one. -/
def remove_from_free_list (s : AState) (bp : Nat) : AState :=
  let s1 :=
    if GET_PREV_PTR s bp ≠ 0 then
      SET_NEXT_PTR s (GET_PREV_PTR s bp) (GET_NEXT_PTR s bp)
    else
      { s with free_list_start := GET_NEXT_PTR s bp }
  SET_PREV_PTR s1 (GET_NEXT_PTR s1 bp) (GET_PREV_PTR s1 bp)

/-- `coalesce(bp)` (lines 239-272): boundary-tag coalescing; note that
`PREV_ALLOC` is `GET_ALLOC(FTRP(PREV_BLK(bp))) || PREV_BLK(bp) == bp` and
that `FTRP` after a header rewrite reads the freshly written size. -/
def coalesce (s : AState) (bp : Nat) : Nat × AState :=
  let next_alloc : Nat := GET_ALLOC s (HDRP (NEXT_BLK s bp))
  let prev_alloc : Bool :=
    (GET_ALLOC s (FTRP s (PREV_BLK s bp)) != 0) || (PREV_BLK s bp == bp)
  let size : Nat := GET_SIZE s (HDRP bp)
  if prev_alloc && (next_alloc == 0) then
    -- next block is only free
    let size1 := wadd size (GET_SIZE s (HDRP (NEXT_BLK s bp)))
    let s1 := remove_from_free_list s (NEXT_BLK s bp)
    let s2 := PUT s1 (HDRP bp) (PACK size1 0)
    let s3 := PUT s2 (FTRP s2 bp) (PACK size1 0)
    (bp, insert_in_free_list s3 bp)
  else if !prev_alloc && (next_alloc != 0) then
    -- prev block is only free
    let size1 := wadd size (GET_SIZE s (HDRP (PREV_BLK s bp)))
    let bp1 := PREV_BLK s bp
    let s1 := remove_from_free_list s bp1
    let s2 := PUT s1 (HDRP bp1) (PACK size1 0)
    let s3 := PUT s2 (FTRP s2 bp1) (PACK size1 0)
    (bp1, insert_in_free_list s3 bp1)
  else if !prev_alloc && (next_alloc == 0) then
    -- both blocks are free
    let size1 := wadd size
      (wadd (GET_SIZE s (HDRP (PREV_BLK s bp))) (GET_SIZE s (HDRP (NEXT_BLK s bp))))
    let s1 := remove_from_free_list s (PREV_BLK s bp)
    let s2 := remove_from_free_list s1 (NEXT_BLK s1 bp)
    let bp1 := PREV_BLK s2 bp
    let s3 := PUT s2 (HDRP bp1) (PACK size1 0)
    let s4 := PUT s3 (FTRP s3 bp1) (PACK size1 0)
    (bp1, insert_in_free_list s4 bp1)
  else
    (bp, insert_in_free_list s bp)

/-- The byte count `extend_heap` requests (lines 286-291): words rounded up
to an even count times `WSIZE`, but at least 16 bytes. -/
def extend_size (words : Nat) : Nat :=
  let size0 : Nat :=
    if words % 2 = 1 then (words + 1) * WSIZE % M64 else words * WSIZE % M64
  if size0 < 16 then 16 else size0

/-- Line 297 of `extend_heap`: write the free block header over the word
below the sbrk return value. -/
def extend_hdr (s1 : AState) (bp size : Nat) : AState :=
  PUT s1 (HDRP bp) (PACK size 0)

/-- Line 298: write the free block footer (`FTRP` reads the fresh header). -/
def extend_ftr (s1 : AState) (bp size : Nat) : AState :=
  PUT (extend_hdr s1 bp size) (FTRP (extend_hdr s1 bp size) bp) (PACK size 0)

/-- Line 299: write the new epilogue header after the new block. -/
def extend_epi (s1 : AState) (bp size : Nat) : AState :=
  PUT (extend_ftr s1 bp size) (HDRP (NEXT_BLK (extend_ftr s1 bp size) bp))
    (PACK 0 1)

/-- Line 301: coalesce the new block and return its address. -/
def extend_ret (s4 : AState) (bp : Nat) : Option Nat × AState :=
  (some (coalesce s4 bp).1, (coalesce s4 bp).2)

/-- `extend_heap(words)` (lines 282-302), assembled from the statement
helpers above (the single C call to `mem_sbrk` is a pure function of the
state here, so reusing its value is sound).  The failure test mirrors the
source: `(int)(bp = mem_sbrk(size)) == -1`. -/
def extend_heap (s : AState) (words : Nat) : Option Nat × AState :=
  if toInt32 (mem_sbrk s (extend_size words)).1 = -1 then
    (none, (mem_sbrk s (extend_size words)).2)
  else
    extend_ret
      (extend_epi (mem_sbrk s (extend_size words)).2
        (mem_sbrk s (extend_size words)).1 (extend_size words))
      (mem_sbrk s (extend_size words)).1

/-- Conversion of a C `int` value to `size_t` (used when the `int` result of
`extendsize/4` is passed to the `size_t` parameter of `extend_heap`). -/
def intToSizeT (i : Int) : Nat := (i % (M64 : Int)).toNat

/-- The `for` loop of `find_fit` (lines 329-334): walk the free list from
`bp` while the header is unallocated; return the first block whose size is
at least `asize`.  `fuel` bounds the walk (the C loop would run forever on a
cyclic corrupted list). -/
def find_fit_loop (s : AState) (asize : Nat) : Nat → Nat → Option Nat
  | 0, _ => none
  | fuel + 1, bp =>
    if GET_ALLOC s (HDRP bp) = 0 then
      if asize ≤ GET_SIZE s (HDRP bp) then some bp
      else find_fit_loop s asize fuel (GET_NEXT_PTR s bp)
    else none

/-- `find_fit(asize)` (lines 314-336), including the static counters and the
repeat-pattern escape.  Both the comparison `last_malloced_size == (int)asize`
and `int extendsize = MAX(asize, 4*WSIZE)` truncate to 32-bit `int`, and
`extendsize/4` is a C `int` division (truncating toward zero). -/
def find_fit (s : AState) (asize : Nat) : Option Nat × AState :=
  if s.last_malloced_size = toInt32 asize then
    if s.repeat_counter > 30 then
      let extendsize : Int := toInt32 (max asize (4 * WSIZE))
      extend_heap s (intToSizeT (Int.tdiv extendsize 4))
    else
      find_fit_walk { s with repeat_counter := s.repeat_counter + 1 } asize
  else
    find_fit_walk { s with repeat_counter := 0 } asize
where
  /-- the list walk, setting `last_malloced_size = asize` on success -/
  find_fit_walk (s : AState) (asize : Nat) : Option Nat × AState :=
    match find_fit_loop s asize (s.cap + 1) s.free_list_start with
    | some bp => (some bp, { s with last_malloced_size := toInt32 asize })
    | none => (none, s)

/-- `place(bp, asize)` (lines 346-363).  The split guard
`(csize - asize) >= 4*WSIZE` is a `size_t` subtraction (wrapping), and the
remainder position `NEXT_BLK(bp)` is read back from the freshly written
(masked) header. -/
def place (s : AState) (bp asize : Nat) : AState :=
  let csize := GET_SIZE s (HDRP bp)
  if 4 * WSIZE ≤ wsub csize asize then
    let s1 := PUT s (HDRP bp) (PACK asize 1)
    let s2 := PUT s1 (FTRP s1 bp) (PACK asize 1)
    let s3 := remove_from_free_list s2 bp
    let bp1 := NEXT_BLK s3 bp
    let s4 := PUT s3 (HDRP bp1) (PACK (wsub csize asize) 0)
    let s5 := PUT s4 (FTRP s4 bp1) (PACK (wsub csize asize) 0)
    (coalesce s5 bp1).2
  else
    let s1 := PUT s (HDRP bp) (PACK csize 1)
    let s2 := PUT s1 (FTRP s1 bp) (PACK csize 1)
    remove_from_free_list s2 bp

/-- The base address at which the region provider starts the heap
(double-word aligned, nonzero so it is distinct from `NULL`). -/
def heapBase : Nat := 4096

/-- `mm_init()` (lines 96-113) given the provider capacity: sbrk 8 words,
write the pad, prologue header/footer and epilogue header (only 4 of the 8
words!), point `free_list_start` at the prologue footer, and extend by 4
words.  Returns `none` on failure (`-1`). -/
def mm_init (cap : Nat) : Option AState :=
  let s0 : AState :=
    { mem := fun _ => 0, brk := heapBase, cap := cap, heap_listp := 0,
      free_list_start := 0, last_malloced_size := 0, repeat_counter := 0 }
  let (p, s1) := mem_sbrk s0 (8 * WSIZE)
  if p = 0 then none
  else
    let s2 := { s1 with heap_listp := p }
    let s3 := PUT s2 p 0
    let s4 := PUT s3 (wadd p (1 * WSIZE)) (PACK DSIZE 1)
    let s5 := PUT s4 (wadd p (2 * WSIZE)) (PACK DSIZE 1)
    let s6 := PUT s5 (wadd p (3 * WSIZE)) (PACK 0 1)
    let s7 := { s6 with free_list_start := wadd p (2 * WSIZE) }
    match extend_heap s7 4 with
    | (none, _) => none
    | (some _, s8) => some s8

/-- The adjusted block size computed by `mm_malloc` (lines 134-138); the sum
`size + DSIZE + (DSIZE - 1)` is `size_t` arithmetic and wraps. -/
def asizeOf (size : Nat) : Nat :=
  if size ≤ DSIZE then 2 * DSIZE
  else DSIZE * ((size + DSIZE + (DSIZE - 1)) % M64 / DSIZE)

/-- `mm_malloc(size)` (lines 124-152). -/
def mm_malloc (s : AState) (size : Nat) : AState × Option Nat :=
  if size = 0 then (s, none)
  else
    let asize := asizeOf size
    let (fit, s1) := find_fit s asize
    match fit with
    | some bp => (place s1 bp asize, some bp)
    | none =>
      let extendsize := max asize CHUNKSIZE
      let (ebp, s2) := extend_heap s1 (extendsize / WSIZE)
      match ebp with
      | none => (s2, none)
      | some bp => (place s2 bp asize, some bp)

/-- `mm_free(bp)` (lines 161-171). -/
def mm_free (s : AState) (bp : Nat) : AState :=
  if bp = 0 then s
  else
    let size := GET_SIZE s (HDRP bp)
    let s1 := PUT s (HDRP bp) (PACK size 0)
    let s2 := PUT s1 (FTRP s1 bp) (PACK size 0)
    (coalesce s2 bp).2

/-- `memcpy(dst, src, n)` on word-aligned `dst`/`src`: copy the `n / 8` full
words in increasing order, then the low `n % 8` bytes of the last word
(little-endian). -/
def memcpyW (s : AState) (dst src n : Nat) : AState :=
  let full := n / WSIZE
  let r := n % WSIZE
  let s1 := (List.range full).foldl
    (fun st i => PUT st (wadd dst (WSIZE * i)) (GET st (wadd src (WSIZE * i)))) s
  if r = 0 then s1
  else
    let sw := GET s1 (wadd src (WSIZE * full))
    let dw := GET s1 (wadd dst (WSIZE * full))
    PUT s1 (wadd dst (WSIZE * full)) (sw % 256 ^ r + (dw - dw % 256 ^ r))

/-- `mm_realloc(bp, size)` (lines 191-227).  The dispatch tests `(int)size`;
there is no null check on `bp` before `GET_SIZE(HDRP(bp))`; `csize` is only
assigned when the short-circuited `&&` reaches it; the fallback path calls
`mm_malloc(newsize)`, then `place(new_ptr, newsize)` again on the returned
block, copies `newsize` bytes and frees the old block. -/
def mm_realloc (s : AState) (bp size : Nat) : AState × Option Nat :=
  if toInt32 size < 0 then (s, none)
  else if toInt32 size = 0 then (mm_free s bp, none)
  else if 0 < size then
    let oldsize := GET_SIZE s (HDRP bp)
    let newsize := wadd size (2 * WSIZE)
    if newsize ≤ oldsize then (s, some bp)
    else
      let next_alloc := GET_ALLOC s (HDRP (NEXT_BLK s bp))
      let csize := wadd oldsize (GET_SIZE s (HDRP (NEXT_BLK s bp)))
      if next_alloc = 0 ∧ newsize ≤ csize then
        let s1 := remove_from_free_list s (NEXT_BLK s bp)
        let s2 := PUT s1 (HDRP bp) (PACK csize 1)
        let s3 := PUT s2 (FTRP s2 bp) (PACK csize 1)
        (s3, some bp)
      else
        let (s1, np) := mm_malloc s newsize
        let new_ptr : Nat := match np with | some p => p | none => 0
        let s2 := place s1 new_ptr newsize
        let s3 := memcpyW s2 new_ptr bp newsize
        let s4 := mm_free s3 bp
        (s4, if new_ptr = 0 then none else some new_ptr)
  else (s, none)

/-!
## Claim-side definitions

Vocabulary taken from the wording of the specification, used to state the
claims against the model above.
-/

/-- The nodes visited when walking the free list from `bp` following `next`
pointers, terminating at the first node whose header is marked allocated
(the sentinel discipline of spec section 3 and the `find_fit` loop guard). -/
def freeChainAux (s : AState) : Nat → Nat → List Nat
  | 0, _ => []
  | fuel + 1, bp =>
    if GET_ALLOC s (HDRP bp) = 0 then
      bp :: freeChainAux s fuel (GET_NEXT_PTR s bp)
    else []

/-- The free list as seen from `free_list_start`. -/
def freeChain (s : AState) : List Nat :=
  freeChainAux s (s.cap + 1) s.free_list_start

/-- Boundary-tag traversal: the blocks `(bp, size, alloc)` found from block
pointer `bp` by repeatedly stepping `NEXT_BLK`, stopping at the first header
whose size field is zero (the epilogue shape). -/
def heapBlocksFrom (s : AState) : Nat → Nat → List (Nat × Nat × Nat)
  | 0, _ => []
  | fuel + 1, bp =>
    if GET_SIZE s (HDRP bp) = 0 then []
    else (bp, GET_SIZE s (HDRP bp), GET_ALLOC s (HDRP bp)) ::
      heapBlocksFrom s fuel (NEXT_BLK s bp)

/-- Provider capacity used for the small concrete scenarios. -/
def heapCap : Nat := 2 ^ 20

/-- Provider capacity used for the scenarios that allocate near 2^31 bytes. -/
def bigCap : Nat := 2 ^ 33

/-- The zero allocator state handed to `mm_init`. -/
def zeroState : AState :=
  { mem := fun _ => 0, brk := heapBase, cap := heapCap, heap_listp := 0,
    free_list_start := 0, last_malloced_size := 0, repeat_counter := 0 }

/-- The state after a successful `mm_init` with capacity `heapCap`.
Concretely: pad at 4096, prologue header 17 at 4104, prologue footer at
4112, stale epilogue 1 at 4120, a 32-byte zero gap, and the initial free
block at 4160 with header at 4152 and a fresh epilogue at 4184. -/
def postInit : AState := (mm_init heapCap).getD zeroState

/-- The state after a successful `mm_init` with capacity `bigCap`. -/
def postInitBig : AState :=
  (mm_init bigCap).getD zeroState

/-- The prologue block pointer: `heap_listp + 2 * WSIZE`, which is also the
initial value of `free_list_start`. -/
def prologueBp : Nat := heapBase + 2 * WSIZE

/-- A request one double word below the top of the unsigned range. -/
def hugeSize : Nat := 2 ^ 64 - 8

/-- The size field of a stored boundary-tag word, i.e. what `GET_SIZE`
extracts from the raw word: the value with its low four bits cleared. -/
def sizeField (v : Nat) : Nat := v - v % DSIZE

/-- Well-formedness of the doubly-linked chain: each consecutive pair is
linked by matching `next` and `prev` pointers. -/
def backlinksOk (s : AState) : List Nat → Bool
  | a :: b :: rest =>
    (GET_NEXT_PTR s a == b) && (GET_PREV_PTR s b == a) && backlinksOk s (b :: rest)
  | _ => true

/-!
## Helper lemmas
-/

theorem GET_SIZE_eq_sizeField (s : AState) (p : Nat) :
    GET_SIZE s p = sizeField (GET s p) := rfl

theorem sizeField_mod_DSIZE (v : Nat) : sizeField v % DSIZE = 0 := by
  simp only [sizeField, DSIZE]
  omega

theorem PACK_zero (a : Nat) : PACK a 0 = a := by
  show a ||| 0 = a
  simp

theorem PACK_one_even (a : Nat) (h : a % 2 = 0) : PACK a 1 = a + 1 := by
  have hb : a = Nat.bit false (a / 2) := by simp [Nat.bit]; omega
  have h1 : (1 : Nat) = Nat.bit true 0 := by simp [Nat.bit]
  rw [PACK, Nat.lor]
  show a ||| 1 = a + 1
  rw [hb, h1, Nat.lor_bit]
  simp [Nat.bit]

theorem PACK_one_odd (a : Nat) (h : a % 2 = 1) : PACK a 1 = a := by
  have hb : a = Nat.bit true (a / 2) := by simp [Nat.bit]; omega
  have h1 : (1 : Nat) = Nat.bit true 0 := by simp [Nat.bit]
  rw [PACK, Nat.lor]
  show a ||| 1 = a
  rw [hb, h1, Nat.lor_bit]
  simp [Nat.bit]

theorem PACK_one_bounds (a : Nat) : a ≤ PACK a 1 ∧ PACK a 1 ≤ a + 1 := by
  rcases Nat.mod_two_eq_zero_or_one a with h | h
  · rw [PACK_one_even a h]; omega
  · rw [PACK_one_odd a h]; omega

theorem wadd_eq {a b : Nat} (h : a + b < 2 ^ 64) : wadd a b = a + b := by
  simp only [wadd, M64]
  omega

theorem wsub_eq {a b : Nat} (hb : b ≤ a) (ha : a < 2 ^ 64) :
    wsub a b = a - b := by
  simp only [wsub, M64]
  omega

theorem GET_lt (s : AState) (p : Nat) : GET s p < M64 := by
  simp only [GET, M64]
  omega

theorem GET_PUT_same (s : AState) (p v : Nat) :
    GET (PUT s p v) p = v % M64 := by
  simp [GET, PUT]

theorem GET_PUT_ne (s : AState) (p v q : Nat) (h : q ≠ p) :
    GET (PUT s p v) q = GET s q := by
  simp [GET, PUT, h]

theorem PUT_brk (s : AState) (p v : Nat) : (PUT s p v).brk = s.brk := rfl

theorem PUT_fls (s : AState) (p v : Nat) :
    (PUT s p v).free_list_start = s.free_list_start := rfl

/-- The non-trivial branch of the adjusted-size computation, without
overflow: it is the least `DSIZE` multiple that is at least
`size + DSIZE`, and is at least `4 * WSIZE`. -/
theorem asizeOf_spec (size : Nat) (h2 : size + 2 * DSIZE - 1 < 2 ^ 64)
    (h : DSIZE < size) :
    asizeOf size = DSIZE * ((size + DSIZE + (DSIZE - 1)) / DSIZE) ∧
    asizeOf size % DSIZE = 0 ∧
    size + DSIZE ≤ asizeOf size ∧
    asizeOf size < size + DSIZE + DSIZE ∧
    4 * WSIZE ≤ asizeOf size := by
  rw [asizeOf, if_neg (by omega)]
  simp only [DSIZE, WSIZE, M64] at *
  omega

/-!
## Theorems for the claims
-/

/-- Claim C1 (code bug).  After `mm_init`, the call `allocate(2^64 - 8)`
returns the non-null pointer 4160, but the served block is only 32 bytes in
total (16 bytes of payload capacity): the adjusted-size computation wraps
modulo 2^64 to 16, so the payload region `p .. p + n` does not lie within
the block, contradicting the claim and the stated contract of `mm_malloc`
(a block with at least `size` bytes of payload). -/
theorem C1_huge_malloc_undersized :
    (mm_malloc postInit hugeSize).2 = some 4160 ∧
    GET_ALLOC (mm_malloc postInit hugeSize).1 (HDRP 4160) = 1 ∧
    GET_SIZE (mm_malloc postInit hugeSize).1 (HDRP 4160) = 32 ∧
    asizeOf hugeSize = 16 ∧
    GET_SIZE (mm_malloc postInit hugeSize).1 (HDRP 4160) - DSIZE < hugeSize := by
  decide

/-- Claim C2 (code bug).  `mm_realloc` has no null check before
`GET_SIZE(HDRP(bp))`, although its own requires-comment admits `bp == NULL`:
`reallocate(null, 1)` on the post-init state reads the out-of-heap word at
address `NULL - WSIZE = 2^64 - 8`, then runs the fallback path with
`newsize = 17`, ending in a heap different from the one `allocate(1)`
produces (break 8288 versus 4192; served block size 48 versus 32), so it is
not a delegation to `allocate`. -/
theorem C2_realloc_null_differs_from_malloc :
    HDRP 0 = 2 ^ 64 - WSIZE ∧
    (mm_realloc postInit 0 1).2 = some 4160 ∧
    (mm_malloc postInit 1).2 = some 4160 ∧
    (mm_realloc postInit 0 1).1.brk = 8288 ∧
    (mm_malloc postInit 1).1.brk = 4192 ∧
    GET_SIZE (mm_realloc postInit 0 1).1 (HDRP 4160) = 48 ∧
    GET_SIZE (mm_malloc postInit 1).1 (HDRP 4160) = 32 := by
  decide

/-- Claim C3 (code bug).  Immediately after `mm_init` the prologue block
fails header/footer agreement: `insert_in_free_list` executed
`SET_PREV_PTR(free_list_start, bp)` while `free_list_start` still pointed at
the prologue, overwriting the prologue footer (the word at the prologue
block pointer 4112) with the address 4160 of the first free block, so
header and footer of the prologue disagree on both size and alloc bit. -/
theorem C3_prologue_header_footer_disagree :
    mm_init heapCap = some postInit ∧
    GET postInit (HDRP prologueBp) = PACK DSIZE 1 ∧
    FTRP postInit prologueBp = prologueBp ∧
    GET postInit (FTRP postInit prologueBp) = 4160 ∧
    GET_SIZE postInit (HDRP prologueBp) ≠
      GET_SIZE postInit (FTRP postInit prologueBp) ∧
    GET_ALLOC postInit (HDRP prologueBp) ≠
      GET_ALLOC postInit (FTRP postInit prologueBp) :=
  ⟨rfl, by decide, by decide, by decide, by decide, by decide⟩

/-- Claim C4, counterexample.  For `size = 2^64 - 8` the sum
`size + DSIZE + (DSIZE - 1)` wraps modulo 2^64, so the computed adjusted
size is 16: it differs from the mathematical value
`DSIZE * ((size + DSIZE + (DSIZE - 1)) / DSIZE)` of the claimed formula and
is below the claimed lower bound `4 * WSIZE`. -/
theorem C4_asize_overflow_counterexample :
    asizeOf hugeSize = 16 ∧
    asizeOf hugeSize ≠ DSIZE * ((hugeSize + DSIZE + (DSIZE - 1)) / DSIZE) ∧
    asizeOf hugeSize < 4 * WSIZE := by
  decide

/-- Claim C4, amended.  For every request whose overhead sum does not exceed
the unsigned range (`size + 2 * DSIZE - 1 < 2^64`): if `size ≤ DSIZE` the
adjusted size is `2 * DSIZE`; otherwise it equals
`DSIZE * ((size + DSIZE + (DSIZE - 1)) / DSIZE)`, which is the combined
payload-plus-overhead `size + DSIZE` rounded up to a multiple of `DSIZE`,
and is at least `4 * WSIZE`. -/
theorem C4_asize_formula_no_overflow (size : Nat) (h1 : 0 < size)
    (h2 : size + 2 * DSIZE - 1 < 2 ^ 64) :
    (size ≤ DSIZE → asizeOf size = 2 * DSIZE) ∧
    (DSIZE < size →
      asizeOf size = DSIZE * ((size + DSIZE + (DSIZE - 1)) / DSIZE) ∧
      asizeOf size % DSIZE = 0 ∧
      size + DSIZE ≤ asizeOf size ∧
      asizeOf size < size + DSIZE + DSIZE ∧
      4 * WSIZE ≤ asizeOf size) := by
  constructor
  · intro h
    simp [asizeOf, h]
  · intro h
    exact asizeOf_spec size h2 h

/-- Witness for `C4_asize_formula_no_overflow` at `size = 17`. -/
theorem C4_asize_formula_witness :
    (17 ≤ DSIZE → asizeOf 17 = 2 * DSIZE) ∧
    (DSIZE < 17 →
      asizeOf 17 = DSIZE * ((17 + DSIZE + (DSIZE - 1)) / DSIZE) ∧
      asizeOf 17 % DSIZE = 0 ∧
      17 + DSIZE ≤ asizeOf 17 ∧
      asizeOf 17 < 17 + DSIZE + DSIZE ∧
      4 * WSIZE ≤ asizeOf 17) :=
  C4_asize_formula_no_overflow 17 (by decide) (by decide)

/-- Claim C6 (code bug).  `mm_init` obtains 8 words from the provider but
initializes only 4, so the epilogue header it writes sits at
`heapBase + 3 * WSIZE` = 4120 while the break is already at 4160; the
extension performed during init therefore writes the new free-block header
at 4152, four words beyond the previous epilogue, which survives unchanged;
forward traversal from the prologue immediately hits that stale epilogue
(size 0, allocated) so the new block is unreachable by boundary tags.  The
fresh epilogue after the new block is written as claimed. -/
theorem C6_init_extension_misses_epilogue :
    mm_init heapCap = some postInit ∧
    GET postInit (heapBase + 3 * WSIZE) = PACK 0 1 ∧
    GET postInit (heapBase + 7 * WSIZE) = PACK 32 0 ∧
    heapBase + 7 * WSIZE ≠ heapBase + 3 * WSIZE ∧
    GET_SIZE postInit (HDRP (NEXT_BLK postInit prologueBp)) = 0 ∧
    GET_ALLOC postInit (HDRP (NEXT_BLK postInit prologueBp)) = 1 ∧
    GET postInit (HDRP (NEXT_BLK postInit 4160)) = PACK 0 1 ∧
    heapBlocksFrom postInit 100 (NEXT_BLK postInit prologueBp) = [] :=
  ⟨rfl, by decide, by decide, by decide, by decide, by decide, by decide,
    by decide⟩

/-- Claim C10 (confirmed).  The `mm_realloc` dispatch is computed on
`(int)size`: for any `size > 0` whose low 32 bits are all zero the cast
yields 0, so `reallocate(bp, size)` frees `bp` and returns null, exactly as
the claim states. -/
theorem C10_realloc_truncated_zero_frees (s : AState) (bp size : Nat)
    (hpos : 0 < size) (hmul : size % 2 ^ 32 = 0) :
    mm_realloc s bp size = (mm_free s bp, none) := by
  have h0 : toInt32 size = 0 := by
    unfold toInt32
    simp only []
    rw [hmul]
    norm_num
  simp [mm_realloc, h0]

/-- Witness for `C10_realloc_truncated_zero_frees` at the post-init state
with `size = 2^32`. -/
theorem C10_realloc_witness :
    mm_realloc postInit 4160 (2 ^ 32) = (mm_free postInit 4160, none) :=
  C10_realloc_truncated_zero_frees postInit 4160 (2 ^ 32) (by decide) (by decide)

/-- The states of spec scenario 3:
`init; a = allocate(64); b = allocate(64); free(a); free(b)`. -/
def scn3a : AState := (mm_malloc postInit 64).1

/-- Scenario 3 after the second allocation. -/
def scn3b : AState := (mm_malloc scn3a 64).1

/-- Scenario 3 after `free(a)`. -/
def scn3c : AState := mm_free scn3b 4160

/-- Scenario 3 after `free(b)`. -/
def scn3d : AState := mm_free scn3c 4240

/-- The free blocks of the extended region of the heap (blocks reached by
boundary-tag traversal from the first extended block at 4160) filtered to
the unallocated ones, as block pointers. -/
def freeBlocksExt (s : AState) : List Nat :=
  ((heapBlocksFrom s 100 4160).filter (fun b => b.2.2 == 0)).map (fun b => b.1)

/-- Claim C7, counterexample.  Already in the state right after `mm_init`
the free list is not terminated by a null `next` pointer: its single node
4160 has `next = 4112`, the prologue block pointer, which is nonzero; the
walk stops there because the prologue header is marked allocated. -/
theorem C7_not_null_terminated :
    freeChain postInit = [4160] ∧
    GET_NEXT_PTR postInit 4160 = prologueBp ∧
    prologueBp ≠ 0 ∧
    GET_ALLOC postInit (HDRP prologueBp) = 1 := by
  decide

/-- Claim C7, amended.  After `mm_init` and after each operation of the
allocate/free scenario 3 of the spec, the nodes reachable from
`free_list_start` by `next` pointers (up to the first allocated header) are
exactly the free blocks of the extended region of the heap; consecutive
nodes are doubly linked (`next`/`prev` match), the head has a null `prev`,
and the list is terminated by a `next` pointer to the prologue block, whose
allocated header stops traversal, not by a null pointer. -/
theorem C7_free_list_exactness_scenarios :
    (freeChain postInit = freeBlocksExt postInit ∧
      backlinksOk postInit (freeChain postInit) = true ∧
      GET_PREV_PTR postInit 4160 = 0 ∧
      GET_NEXT_PTR postInit ((freeChain postInit).getLastD 0) = prologueBp ∧
      GET_ALLOC postInit (HDRP prologueBp) = 1) ∧
    (freeChain scn3a = freeBlocksExt scn3a ∧
      backlinksOk scn3a (freeChain scn3a) = true ∧
      GET_NEXT_PTR scn3a ((freeChain scn3a).getLastD 0) = prologueBp) ∧
    (freeChain scn3b = freeBlocksExt scn3b ∧
      backlinksOk scn3b (freeChain scn3b) = true ∧
      GET_NEXT_PTR scn3b ((freeChain scn3b).getLastD 0) = prologueBp) ∧
    (freeChain scn3c = [4160, 4320] ∧
      freeBlocksExt scn3c = [4160, 4320] ∧
      backlinksOk scn3c (freeChain scn3c) = true ∧
      GET_PREV_PTR scn3c 4160 = 0 ∧
      GET_NEXT_PTR scn3c ((freeChain scn3c).getLastD 0) = prologueBp) ∧
    (freeChain scn3d = [4160] ∧
      freeBlocksExt scn3d = [4160] ∧
      backlinksOk scn3d (freeChain scn3d) = true ∧
      GET_PREV_PTR scn3d 4160 = 0 ∧
      GET_SIZE scn3d (HDRP 4160) = 4128 ∧
      GET_NEXT_PTR scn3d ((freeChain scn3d).getLastD 0) = prologueBp) := by
  decide

/-- The state after `init; allocate(17)`: the heap holds an allocated
48-byte block at 4160 and a free 4080-byte block at 4208. -/
def c8mid : AState := (mm_malloc postInit 17).1

/-- Claim C8, counterexample.  In the reachable trace
`init; allocate(17); allocate(2^64 - 8)`, the second allocation wraps its
adjusted size to 16 and `place` splits the 4080-byte free block, serving a
live allocated block at 4208 whose header size field is 16 — smaller than
the minimum block size `4 * WSIZE = 32` the claim asserts is invariant. -/
theorem C8_small_block_counterexample :
    (mm_malloc postInit 17).2 = some 4160 ∧
    (mm_malloc c8mid hugeSize).2 = some 4208 ∧
    GET_ALLOC (mm_malloc c8mid hugeSize).1 (HDRP 4208) = 1 ∧
    GET_SIZE (mm_malloc c8mid hugeSize).1 (HDRP 4208) = 16 ∧
    GET_SIZE (mm_malloc c8mid hugeSize).1 (HDRP 4208) < 4 * WSIZE := by
  decide

/-- Claim C8, amended.  Size fields as read through `GET_SIZE` are always
`DSIZE` multiples (the mask discards the low bits); every allocate whose
adjusted-size computation does not wrap produces `asize ≥ 4 * WSIZE`, and
header/footer words written by `place` as `PACK(asize, 1)` and
`PACK(csize - asize, 0)` — including the second `place` call of the
realloc fallback, whose `newsize = size + 2 * WSIZE` need not be a `DSIZE`
multiple but exceeds `4 * WSIZE` whenever it exceeds a current block size —
carry size fields that are `DSIZE` multiples and at least `4 * WSIZE`. -/
theorem C8_size_fields_amended :
    (∀ (s : AState) (p : Nat), GET_SIZE s p % DSIZE = 0) ∧
    (∀ size : Nat, 0 < size → size + 2 * DSIZE - 1 < 2 ^ 64 →
      4 * WSIZE ≤ asizeOf size ∧ asizeOf size % DSIZE = 0) ∧
    (∀ asize : Nat, 4 * WSIZE ≤ asize →
      4 * WSIZE ≤ sizeField (PACK asize 1) ∧
      sizeField (PACK asize 1) % DSIZE = 0) ∧
    (∀ r : Nat, 4 * WSIZE ≤ r →
      4 * WSIZE ≤ sizeField (PACK r 0) ∧ sizeField (PACK r 0) % DSIZE = 0) ∧
    (∀ size oldsize : Nat, 4 * WSIZE ≤ oldsize →
      oldsize < wadd size (2 * WSIZE) → size + 2 * WSIZE < 2 ^ 64 →
      4 * WSIZE < wadd size (2 * WSIZE)) := by
  refine ⟨?_, ?_, ?_, ?_, ?_⟩
  · intro s p
    simp only [GET_SIZE, DSIZE]
    omega
  · intro size hpos hno
    by_cases h : size ≤ DSIZE
    · rw [asizeOf, if_pos h]
      constructor
      · simp [DSIZE, WSIZE]
      · simp [DSIZE]
    · have := asizeOf_spec size hno (by omega)
      exact ⟨this.2.2.2.2, this.2.1⟩
  · intro asize h
    have hb := PACK_one_bounds asize
    constructor
    · simp only [sizeField, DSIZE, WSIZE] at *
      omega
    · exact sizeField_mod_DSIZE _
  · intro r h
    rw [PACK_zero]
    constructor
    · simp only [sizeField, DSIZE, WSIZE] at *
      omega
    · exact sizeField_mod_DSIZE _
  · intro size oldsize h1 h2 h3
    rw [wadd_eq (by simpa [WSIZE] using h3)] at *
    simp only [WSIZE, DSIZE] at *
    omega

/-- In `remove_from_free_list`, the `next` pointer of `bp` re-read after the
first unlink write still has its original value: the only possibly aliasing
write stores exactly that value. -/
theorem remove_next_stable (s : AState) (bp : Nat) :
    GET_NEXT_PTR
      (if GET_PREV_PTR s bp ≠ 0 then
        SET_NEXT_PTR s (GET_PREV_PTR s bp) (GET_NEXT_PTR s bp)
      else { s with free_list_start := GET_NEXT_PTR s bp }) bp
    = GET_NEXT_PTR s bp := by
  split
  · by_cases h : wadd bp WSIZE = wadd (GET_PREV_PTR s bp) WSIZE
    · simp only [GET_NEXT_PTR, SET_NEXT_PTR]
      rw [h, GET_PUT_same]
      exact Nat.mod_eq_of_lt (GET_lt s _)
    · simp only [GET_NEXT_PTR, SET_NEXT_PTR]
      rw [GET_PUT_ne _ _ _ _ h]
  · rfl

/-- Frame lemma: `remove_from_free_list s bp` writes only at
`GET_PREV_PTR s bp + WSIZE` (when the prev pointer is nonzero) and at
`GET_NEXT_PTR s bp`; any other address is untouched. -/
theorem GET_remove_ne (s : AState) (bp a : Nat)
    (h1 : GET_PREV_PTR s bp = 0 ∨ a ≠ wadd (GET_PREV_PTR s bp) WSIZE)
    (h2 : a ≠ GET_NEXT_PTR s bp) :
    GET (remove_from_free_list s bp) a = GET s a := by
  unfold remove_from_free_list
  rw [SET_PREV_PTR, remove_next_stable, GET_PUT_ne _ _ _ _ h2]
  split
  · rcases h1 with h1 | h1
    · simp_all
    · exact GET_PUT_ne _ _ _ _ h1
  · rfl

/-- `remove_from_free_list` updates `free_list_start` exactly when the
removed node has a null `prev` pointer, to the `next` pointer of the node. -/
theorem remove_fls (s : AState) (bp : Nat) :
    (remove_from_free_list s bp).free_list_start =
      if GET_PREV_PTR s bp = 0 then GET_NEXT_PTR s bp
      else s.free_list_start := by
  unfold remove_from_free_list
  rw [SET_PREV_PTR, PUT_fls]
  split <;> simp_all [SET_NEXT_PTR, PUT_fls]

/-- `remove_from_free_list` does not move the break. -/
theorem remove_brk (s : AState) (bp : Nat) :
    (remove_from_free_list s bp).brk = s.brk := by
  unfold remove_from_free_list
  split <;> rfl

/-- Size fields read through the mask are `DSIZE` multiples. -/
theorem GET_SIZE_mod (s : AState) (p : Nat) : GET_SIZE s p % DSIZE = 0 := by
  simp only [GET_SIZE, DSIZE]
  omega

/-- `init(cap = 2^33); x = allocate(1)`: the 32-byte block at 4160. -/
def c5x : AState := (mm_malloc postInitBig 1).1

/-- `big = allocate(2^31 - 32)`: the `2^31 - 16`-byte block at 4192,
directly after `x`. -/
def c5big : AState := (mm_malloc c5x (2 ^ 31 - 32)).1

/-- After `free(big)`: `x` at 4160 is allocated and its forward neighbor at
4192 is a free block of `2^31 - 16` bytes. -/
def c5pre : AState := mm_free c5big 4192

/-- Claim C5, counterexample.  In the reachable state `c5pre`, for
`size = 2^31` all absorption premises of the claim hold
(`newsize = 2^31 + 16` exceeds `oldsize = 32`, the forward neighbor is free,
and `oldsize + neighbor = 2^31 + 16 ≥ newsize`), yet
`reallocate(4160, 2^31)` returns null and changes nothing: the dispatch on
`(int)size` sees the negative value `-2^31`. -/
theorem C5_int_dispatch_counterexample :
    (mm_malloc postInitBig 1).2 = some 4160 ∧
    (mm_malloc c5x (2 ^ 31 - 32)).2 = some 4192 ∧
    GET_ALLOC c5pre (HDRP 4160) = 1 ∧
    GET_SIZE c5pre (HDRP 4160) = 32 ∧
    NEXT_BLK c5pre 4160 = 4192 ∧
    GET_ALLOC c5pre (HDRP 4192) = 0 ∧
    GET_SIZE c5pre (HDRP 4192) = 2 ^ 31 - 16 ∧
    GET_SIZE c5pre (HDRP 4160) < wadd (2 ^ 31) (2 * WSIZE) ∧
    wadd (2 ^ 31) (2 * WSIZE) ≤
      wadd (GET_SIZE c5pre (HDRP 4160)) (GET_SIZE c5pre (HDRP 4192)) ∧
    toInt32 (2 ^ 31) < 0 ∧
    mm_realloc c5pre 4160 (2 ^ 31) = (c5pre, none) :=
  ⟨by decide, by decide, by decide, by decide, by decide, by decide,
   by decide, by decide, by decide, by decide, rfl⟩

/-- Claim C5, amended.  For an allocated block `bp` and a request `size`
whose low 32 bits read as a positive `int` (the dispatch restriction the
code imposes), with `newsize = size + 2 * WSIZE` larger than the current
block size, a free forward neighbor, and a combined size of at least
`newsize`: `reallocate(bp, size)` returns `bp` itself, rewrites the header
of `bp` and the footer at `bp + csize - DSIZE` to `PACK(csize, 1)` with
`csize = oldsize + neighbor size`, unlinks the neighbor (its predecessor
takes over its successor; the list head moves to the successor when the
neighbor was the head), does not move the break, and leaves every payload
word of `bp` in place (no copy) apart from the two unlink target cells. -/
theorem C5_absorb_in_place (s : AState) (bp size oldsize nsize csize nbp : Nat)
    (ho : oldsize = GET_SIZE s (HDRP bp))
    (hn : nbp = NEXT_BLK s bp)
    (hns : nsize = GET_SIZE s (HDRP nbp))
    (hc : csize = oldsize + nsize)
    (hint : 0 < toInt32 size)
    (hszw : size + 2 * WSIZE < 2 ^ 64)
    (hbp : 2 * WSIZE ≤ bp)
    (hlt : bp + csize < 2 ^ 64)
    (hgrow : oldsize < size + 2 * WSIZE)
    (hfree : GET_ALLOC s (HDRP nbp) = 0)
    (hfit : size + 2 * WSIZE ≤ csize) :
    (mm_realloc s bp size).2 = some bp ∧
    GET (mm_realloc s bp size).1 (HDRP bp) = PACK csize 1 ∧
    GET (mm_realloc s bp size).1 (bp + csize - DSIZE) = PACK csize 1 ∧
    (mm_realloc s bp size).1.brk = s.brk ∧
    (mm_realloc s bp size).1.free_list_start =
      (if GET_PREV_PTR s nbp = 0 then GET_NEXT_PTR s nbp
       else s.free_list_start) ∧
    (∀ a : Nat, bp ≤ a → a < bp + oldsize - DSIZE →
      (GET_PREV_PTR s nbp = 0 ∨ a ≠ wadd (GET_PREV_PTR s nbp) WSIZE) →
      a ≠ GET_NEXT_PTR s nbp →
      GET (mm_realloc s bp size).1 a = GET s a) := by
  have hsz0 : 0 < size := by
    rcases Nat.eq_zero_or_pos size with h | h
    · subst h
      simp [toInt32] at hint
    · exact h
  have hnneg : ¬toInt32 size < 0 := by omega
  have hnzero : ¬toInt32 size = 0 := by omega
  have hmo : oldsize % 16 = 0 := by
    rw [ho]
    simpa [DSIZE] using GET_SIZE_mod s (HDRP bp)
  have hmn : nsize % 16 = 0 := by
    rw [hns]
    simpa [DSIZE] using GET_SIZE_mod s (HDRP nbp)
  have hcmod : csize % 16 = 0 := by omega
  have hbp16 : 16 ≤ bp := by simp only [WSIZE] at hbp; omega
  have hsz16 : size + 16 < 2 ^ 64 := by simp only [WSIZE] at hszw; omega
  have hgrow16 : oldsize < size + 16 := by simp only [WSIZE] at hgrow; omega
  have hfit16 : size + 16 ≤ csize := by simp only [WSIZE] at hfit; omega
  have hnewsize : wadd size (2 * WSIZE) = size + 2 * WSIZE := wadd_eq hszw
  have hcw : wadd oldsize nsize = csize := by
    rw [hc]
    refine wadd_eq ?_
    omega
  have hstep : mm_realloc s bp size =
      (let s1 := remove_from_free_list s nbp
       let s2 := PUT s1 (HDRP bp) (PACK csize 1)
       (PUT s2 (FTRP s2 bp) (PACK csize 1), some bp)) := by
    unfold mm_realloc
    rw [if_neg hnneg, if_neg hnzero, if_pos hsz0]
    simp only [← hn, ← ho, ← hns, hnewsize, hcw]
    rw [if_neg (by simp only [WSIZE]; omega), if_pos ⟨hfree, hfit⟩]
  have hcsize_lt : csize + 1 < 2 ^ 64 := by omega
  have hhd : HDRP bp = bp - 8 := by
    simp only [HDRP, WSIZE]
    exact wsub_eq (by omega) (by omega)
  rw [hstep]
  simp only []
  have hget2 : GET (PUT (remove_from_free_list s nbp) (HDRP bp)
      (PACK csize 1)) (HDRP bp) = csize + 1 := by
    rw [GET_PUT_same, PACK_one_even csize (by omega)]
    exact Nat.mod_eq_of_lt (by simpa [M64] using hcsize_lt)
  have hftr : FTRP (PUT (remove_from_free_list s nbp) (HDRP bp)
      (PACK csize 1)) bp = bp + csize - DSIZE := by
    rw [FTRP, GET_SIZE_eq_sizeField, hget2]
    have hsf : sizeField (csize + 1) = csize := by
      simp only [sizeField, DSIZE]
      omega
    rw [hsf]
    simp only [DSIZE]
    rw [wadd_eq (by omega), wsub_eq (by omega) (by omega)]
  have hne_hf : HDRP bp ≠ bp + csize - DSIZE := by
    rw [hhd]
    simp only [DSIZE]
    omega
  refine ⟨trivial, ?_, ?_, ?_, ?_, ?_⟩
  · rw [hftr, GET_PUT_ne _ _ _ _ hne_hf, hget2,
      PACK_one_even csize (by omega)]
  · rw [hftr, GET_PUT_same, PACK_one_even csize (by omega)]
    exact Nat.mod_eq_of_lt (by simpa [M64] using hcsize_lt)
  · rw [PUT_brk, PUT_brk, remove_brk]
  · rw [PUT_fls, PUT_fls, remove_fls]
  · intro a ha1 ha2 hprev hnext
    have hane1 : a ≠ bp + csize - DSIZE := by
      simp only [DSIZE] at ha2 ⊢
      omega
    have hane2 : a ≠ HDRP bp := by
      rw [hhd]
      omega
    rw [hftr, GET_PUT_ne _ _ _ _ hane1, GET_PUT_ne _ _ _ _ hane2]
    exact GET_remove_ne s nbp a hprev hnext

/-- The scenario-4 state: `init; a = allocate(32); b = allocate(32);
free(b)`: block `a` at 4160 (48 bytes, allocated), its forward neighbor at
4208 free with 4080 bytes. -/
def c5wit : AState :=
  mm_free (mm_malloc (mm_malloc postInit 32).1 32).1 4208

/-- Witness for `C5_absorb_in_place` at the scenario-4 state:
`reallocate(a, 48)` absorbs the free neighbor and returns `a = 4160`. -/
theorem C5_absorb_witness :
    (mm_realloc c5wit 4160 48).2 = some 4160 ∧
    GET (mm_realloc c5wit 4160 48).1 (HDRP 4160) = PACK 4128 1 ∧
    GET (mm_realloc c5wit 4160 48).1 (4160 + 4128 - DSIZE) = PACK 4128 1 ∧
    (mm_realloc c5wit 4160 48).1.brk = c5wit.brk ∧
    (mm_realloc c5wit 4160 48).1.free_list_start =
      (if GET_PREV_PTR c5wit 4208 = 0 then GET_NEXT_PTR c5wit 4208
       else c5wit.free_list_start) ∧
    (∀ a : Nat, 4160 ≤ a → a < 4160 + 48 - DSIZE →
      (GET_PREV_PTR c5wit 4208 = 0 ∨ a ≠ wadd (GET_PREV_PTR c5wit 4208) WSIZE) →
      a ≠ GET_NEXT_PTR c5wit 4208 →
      GET (mm_realloc c5wit 4160 48).1 a = GET c5wit a) :=
  C5_absorb_in_place c5wit 4160 48 48 4080 4128 4208
    (by decide) (by decide) (by decide) (by decide) (by decide) (by decide)
    (by decide) (by decide) (by decide) (by decide) (by decide)

/-- The `find_fit` first-fit result as the specification words it: the
first node of the free chain whose size is at least `asize`. -/
def firstFitSpec (s : AState) (asize : Nat) : Option Nat :=
  (freeChain s).find? (fun q => asize ≤ GET_SIZE s (HDRP q))

/-- The list walk of `find_fit` computes exactly the first fitting node of
the free chain. -/
theorem find_fit_loop_eq_find (s : AState) (asize : Nat) :
    ∀ (fuel bp : Nat),
      find_fit_loop s asize fuel bp =
        (freeChainAux s fuel bp).find? (fun q => asize ≤ GET_SIZE s (HDRP q)) := by
  intro fuel
  induction fuel with
  | zero => intro bp; rfl
  | succ n ih =>
    intro bp
    simp only [find_fit_loop, freeChainAux]
    split
    · by_cases h : asize ≤ GET_SIZE s (HDRP bp)
      · simp [h]
      · simp [h, ih]
    · rfl

/-- Changing only the static counters leaves the list walk unchanged. -/
theorem find_fit_loop_counter_irrel (s : AState) (n : Int) (asize : Nat) :
    ∀ (fuel bp : Nat),
      find_fit_loop { s with repeat_counter := n } asize fuel bp =
        find_fit_loop s asize fuel bp := by
  intro fuel
  induction fuel with
  | zero => intro bp; rfl
  | succ k ih =>
    intro bp
    simp only [find_fit_loop, ih]
    rfl

/-- Changing only the static counters leaves the free chain unchanged. -/
theorem freeChainAux_counter_irrel (s : AState) (n : Int) :
    ∀ (fuel bp : Nat),
      freeChainAux { s with repeat_counter := n } fuel bp =
        freeChainAux s fuel bp := by
  intro fuel
  induction fuel with
  | zero => intro bp; rfl
  | succ k ih =>
    intro bp
    simp only [freeChainAux, ih]
    rfl

theorem insert_brk (s : AState) (bp : Nat) :
    (insert_in_free_list s bp).brk = s.brk := rfl

theorem coalesce_brk (s : AState) (bp : Nat) :
    (coalesce s bp).2.brk = s.brk := by
  unfold coalesce
  simp only []
  split
  · rw [insert_brk, PUT_brk, PUT_brk, remove_brk]
  · split
    · rw [insert_brk, PUT_brk, PUT_brk, remove_brk]
    · split
      · rw [insert_brk, PUT_brk, PUT_brk, remove_brk, remove_brk]
      · rw [insert_brk]

/-- Frame lemma: `insert_in_free_list s bp` writes only at `bp`,
`bp + WSIZE` and the old head `s.free_list_start`. -/
theorem GET_insert_ne (s : AState) (bp a : Nat)
    (h1 : a ≠ bp) (h2 : a ≠ wadd bp WSIZE) (h3 : a ≠ s.free_list_start) :
    GET (insert_in_free_list s bp) a = GET s a := by
  unfold insert_in_free_list SET_NEXT_PTR SET_PREV_PTR
  simp only [PUT_fls]
  show GET (PUT (PUT (PUT s (wadd bp WSIZE) s.free_list_start)
    s.free_list_start bp) bp 0) a = GET s a
  rw [GET_PUT_ne _ _ _ _ h1, GET_PUT_ne _ _ _ _ h3, GET_PUT_ne _ _ _ _ h2]

/-- `insert_in_free_list` leaves the break unchanged and makes `bp` the new
head. -/
theorem insert_fls (s : AState) (bp : Nat) :
    (insert_in_free_list s bp).free_list_start = bp := rfl

/-- Specification of a successful `extend_heap` call whose backward
neighbor is allocated (or absent, the prologue-guard case): the provider
break advances by the rounded byte count, and the fresh block at the old
break is free with exactly that size, with a new epilogue header after
it. -/
theorem extend_heap_fresh (s : AState) (w : Nat)
    (hw2 : w % 2 = 0)
    (hszmod : w * WSIZE % DSIZE = 0)
    (hszlo : 4 * WSIZE ≤ w * WSIZE)
    (hbrk : 4 * WSIZE ≤ s.brk)
    (hb8 : s.brk % WSIZE = 0)
    (hcap : s.brk + w * WSIZE ≤ s.cap)
    (hcapM : s.cap < 2 ^ 64)
    (hprev : PREV_BLK s s.brk = s.brk ∨
      (PREV_BLK s s.brk + 4 * WSIZE ≤ s.brk ∧
       FTRP s (PREV_BLK s s.brk) + WSIZE < s.brk ∧
       GET_ALLOC s (FTRP s (PREV_BLK s s.brk)) = 1))
    (hfls : s.free_list_start + WSIZE < s.brk) :
    (extend_heap s w).1 = some s.brk ∧
    (extend_heap s w).2.brk = s.brk + w * WSIZE ∧
    GET_ALLOC (extend_heap s w).2 (HDRP s.brk) = 0 ∧
    GET_SIZE (extend_heap s w).2 (HDRP s.brk) = w * WSIZE ∧
    GET (extend_heap s w).2 (HDRP (s.brk + w * WSIZE)) = PACK 0 1 := by
  simp only [WSIZE, DSIZE] at *
  have hszM : w * 8 < 2 ^ 64 := by omega
  have hbpM : s.brk + w * 8 < 2 ^ 64 := by omega
  have hint32 : ¬toInt32 s.brk = -1 := by
    unfold toInt32
    simp only []
    split <;> omega
  have hsbrk : mem_sbrk s (w * 8) = (s.brk, { s with brk := s.brk + w * 8 }) := by
    unfold mem_sbrk
    rw [if_pos hcap]
  have hsize : extend_size w = w * 8 := by
    unfold extend_size
    simp only [WSIZE, M64]
    rw [if_neg (show ¬w % 2 = 1 by omega), Nat.mod_eq_of_lt hszM,
      if_neg (show ¬w * 8 < 16 by omega)]
  have hhd : HDRP s.brk = s.brk - 8 := by
    simp only [HDRP, WSIZE]
    exact wsub_eq (by omega) (by omega)
  have hhd2 : HDRP (s.brk + w * 8) = s.brk + w * 8 - 8 := by
    simp only [HDRP, WSIZE]
    exact wsub_eq (by omega) (by omega)
  have hsf8 : sizeField (w * 8) = w * 8 := by
    simp only [sizeField, DSIZE]
    omega
  set S1 : AState := { s with brk := s.brk + w * 8 } with hS1
  have hstep : extend_heap s w =
      extend_ret (extend_epi S1 s.brk (w * 8)) s.brk := by
    unfold extend_heap
    rw [hsize, hsbrk]
    show (if toInt32 s.brk = -1 then ((none : Option Nat), S1)
        else extend_ret (extend_epi S1 s.brk (w * 8)) s.brk) =
      extend_ret (extend_epi S1 s.brk (w * 8)) s.brk
    rw [if_neg hint32]
  have hE1get : GET (extend_hdr S1 s.brk (w * 8)) (HDRP s.brk) = w * 8 := by
    unfold extend_hdr
    rw [GET_PUT_same, PACK_zero]
    exact Nat.mod_eq_of_lt (by simpa [M64] using hszM)
  have hE1ftr : FTRP (extend_hdr S1 s.brk (w * 8)) s.brk =
      s.brk + w * 8 - 16 := by
    rw [FTRP, GET_SIZE_eq_sizeField, hE1get, hsf8]
    simp only [DSIZE]
    rw [wadd_eq (by omega)]
    exact wsub_eq (by omega) (by omega)
  have hE2get : GET (extend_ftr S1 s.brk (w * 8)) (HDRP s.brk) = w * 8 := by
    unfold extend_ftr
    rw [hE1ftr, GET_PUT_ne _ _ _ _ (by rw [hhd]; omega)]
    exact hE1get
  have hE2next : NEXT_BLK (extend_ftr S1 s.brk (w * 8)) s.brk =
      s.brk + w * 8 := by
    rw [NEXT_BLK, GET_SIZE_eq_sizeField, hE2get, hsf8]
    exact wadd_eq (by omega)
  have hE3get : GET (extend_epi S1 s.brk (w * 8)) (HDRP s.brk) = w * 8 := by
    unfold extend_epi
    rw [hE2next, hhd2, GET_PUT_ne _ _ _ _ (by rw [hhd]; omega)]
    exact hE2get
  have hE3epi : GET (extend_epi S1 s.brk (w * 8)) (s.brk + w * 8 - 8) = 1 := by
    unfold extend_epi
    rw [hE2next, hhd2, GET_PUT_same]
    rfl
  have hframe : ∀ a : Nat, a ≠ s.brk - 8 → a ≠ s.brk + w * 8 - 16 →
      a ≠ s.brk + w * 8 - 8 →
      GET (extend_epi S1 s.brk (w * 8)) a = GET s a := by
    intro a h1 h2 h3
    unfold extend_epi
    rw [hE2next, hhd2, GET_PUT_ne _ _ _ _ h3]
    unfold extend_ftr
    rw [hE1ftr, GET_PUT_ne _ _ _ _ h2]
    unfold extend_hdr
    rw [GET_PUT_ne _ _ _ _ (by rw [hhd]; exact h1)]
    rfl
  have hprev4 : PREV_BLK (extend_epi S1 s.brk (w * 8)) s.brk =
      PREV_BLK s s.brk := by
    simp only [PREV_BLK, DSIZE]
    have h16 : wsub s.brk 16 = s.brk - 16 := wsub_eq (by omega) (by omega)
    rw [h16, GET_SIZE_eq_sizeField, GET_SIZE_eq_sizeField,
      hframe _ (by omega) (by omega) (by omega)]
  have hn4 : GET_ALLOC (extend_epi S1 s.brk (w * 8))
      (HDRP (NEXT_BLK (extend_epi S1 s.brk (w * 8)) s.brk)) = 1 := by
    have hnext4 : NEXT_BLK (extend_epi S1 s.brk (w * 8)) s.brk =
        s.brk + w * 8 := by
      rw [NEXT_BLK, GET_SIZE_eq_sizeField, hE3get, hsf8]
      exact wadd_eq (by omega)
    rw [hnext4, hhd2, GET_ALLOC, hE3epi]
  have hp4 : ((GET_ALLOC (extend_epi S1 s.brk (w * 8))
        (FTRP (extend_epi S1 s.brk (w * 8))
          (PREV_BLK (extend_epi S1 s.brk (w * 8)) s.brk)) != 0) ||
      (PREV_BLK (extend_epi S1 s.brk (w * 8)) s.brk == s.brk)) = true := by
    rcases hprev with hcase | ⟨hq1, hq2, hq3⟩
    · rw [hprev4, hcase]
      simp
    · rw [hprev4]
      have hhdq : GET (extend_epi S1 s.brk (w * 8)) (HDRP (PREV_BLK s s.brk)) =
          GET s (HDRP (PREV_BLK s s.brk)) := by
        by_cases hql : 8 ≤ PREV_BLK s s.brk
        · have he : HDRP (PREV_BLK s s.brk) = PREV_BLK s s.brk - 8 := by
            simp only [HDRP, WSIZE]
            exact wsub_eq (by omega) (by omega)
          rw [he]
          exact hframe _ (by omega) (by omega) (by omega)
        · have he : HDRP (PREV_BLK s s.brk) = 2 ^ 64 - 8 + PREV_BLK s s.brk := by
            simp only [HDRP, WSIZE, wsub, M64]
            omega
          rw [he]
          exact hframe _ (by omega) (by omega) (by omega)
      have hftr4 : FTRP (extend_epi S1 s.brk (w * 8)) (PREV_BLK s s.brk) =
          FTRP s (PREV_BLK s s.brk) := by
        rw [FTRP, FTRP, GET_SIZE_eq_sizeField, GET_SIZE_eq_sizeField, hhdq]
      rw [hftr4, GET_ALLOC, hframe _ (by omega) (by omega) (by omega)]
      rw [GET_ALLOC] at hq3
      rw [hq3]
      simp
  have hcoal : coalesce (extend_epi S1 s.brk (w * 8)) s.brk =
      (s.brk, insert_in_free_list (extend_epi S1 s.brk (w * 8)) s.brk) := by
    unfold coalesce
    simp only []
    rw [if_neg ?c1, if_neg ?c2, if_neg ?c3]
    case c1 =>
      intro h
      rw [Bool.and_eq_true] at h
      rw [hn4] at h
      simp at h
    case c2 =>
      intro h
      rw [Bool.and_eq_true] at h
      have h1 := h.1
      rw [hp4] at h1
      simp at h1
    case c3 =>
      intro h
      rw [Bool.and_eq_true] at h
      have h1 := h.1
      rw [hp4] at h1
      simp at h1
  have hE3brk : (extend_epi S1 s.brk (w * 8)).brk = s.brk + w * 8 := by
    unfold extend_epi extend_ftr extend_hdr
    rw [PUT_brk, PUT_brk, PUT_brk]
  have hE3fls : (extend_epi S1 s.brk (w * 8)).free_list_start =
      s.free_list_start := by
    unfold extend_epi extend_ftr extend_hdr
    rw [PUT_fls, PUT_fls, PUT_fls]
  have hwadd8 : wadd s.brk 8 = s.brk + 8 := wadd_eq (by omega)
  have hgfin : GET (insert_in_free_list (extend_epi S1 s.brk (w * 8)) s.brk)
      (HDRP s.brk) = w * 8 := by
    rw [GET_insert_ne _ _ _ (by rw [hhd]; omega)
      (by rw [hhd]; simp only [WSIZE]; rw [hwadd8]; omega)
      (by rw [hhd, hE3fls]; omega)]
    exact hE3get
  rw [hstep]
  unfold extend_ret
  rw [hcoal]
  refine ⟨rfl, ?_, ?_, ?_, ?_⟩
  · show (insert_in_free_list (extend_epi S1 s.brk (w * 8)) s.brk).brk =
      s.brk + w * 8
    rw [insert_brk, hE3brk]
  · show GET_ALLOC (insert_in_free_list (extend_epi S1 s.brk (w * 8)) s.brk)
      (HDRP s.brk) = 0
    rw [GET_ALLOC, hgfin]
    omega
  · show GET_SIZE (insert_in_free_list (extend_epi S1 s.brk (w * 8)) s.brk)
      (HDRP s.brk) = w * 8
    rw [GET_SIZE_eq_sizeField, hgfin, hsf8]
  · show GET (insert_in_free_list (extend_epi S1 s.brk (w * 8)) s.brk)
      (HDRP (s.brk + w * 8)) = PACK 0 1
    rw [hhd2, GET_insert_ne _ _ _ (by omega)
      (by simp only [WSIZE]; rw [hwadd8]; omega)
      (by rw [hE3fls]; omega), hE3epi]
    rfl

/-- The list walk with success bookkeeping of `find_fit` computes, in its
first component, the first-fit result of the specification. -/
theorem find_fit_walk_fst (s : AState) (asize : Nat) :
    (find_fit.find_fit_walk s asize).1 = firstFitSpec s asize := by
  unfold find_fit.find_fit_walk
  rw [find_fit_loop_eq_find s asize]
  cases hres : (freeChainAux s (s.cap + 1) s.free_list_start).find?
      (fun q => asize ≤ GET_SIZE s (HDRP q)) with
  | none => simp [hres, firstFitSpec, freeChain]
  | some bp => simp [hres, firstFitSpec, freeChain]

/-- The first-fit specification ignores the static counters. -/
theorem firstFitSpec_counter_irrel (s : AState) (n : Int) (asize : Nat) :
    firstFitSpec { s with repeat_counter := n } asize = firstFitSpec s asize := by
  unfold firstFitSpec freeChain
  rw [freeChainAux_counter_irrel]
  rfl

/-- Claim C9, amended.  `find_fit(asize)` returns the first node of the free
chain (walked from `free_list_start` until an allocated header) whose size
is at least `asize`, or null — unless the stored `last_malloced_size` (an
`int`) equals the 32-bit truncation of `asize` and the repeat counter
exceeds 30, in which case it returns the result of extending the heap by
`(int)max(asize, 4*WSIZE) / 4` words; for `asize < 2^31` (truncation
faithful) with an allocated backward neighbor at the top of the heap and
sufficient provider capacity, that escape serves a fresh free block of
`2 * asize` bytes — at least `max(asize, 4*WSIZE)` — at the old break. -/
theorem C9_find_fit_amended (s : AState) (asize : Nat) :
    (¬(s.last_malloced_size = toInt32 asize ∧ s.repeat_counter > 30) →
      (find_fit s asize).1 = firstFitSpec s asize) ∧
    (s.last_malloced_size = toInt32 asize → s.repeat_counter > 30 →
      find_fit s asize =
        extend_heap s (intToSizeT (Int.tdiv (toInt32 (max asize (4 * WSIZE))) 4))) ∧
    (s.last_malloced_size = toInt32 asize → s.repeat_counter > 30 →
      asize % DSIZE = 0 → 4 * WSIZE ≤ asize → asize < 2 ^ 31 →
      4 * WSIZE ≤ s.brk → s.brk % WSIZE = 0 →
      s.brk + 2 * asize ≤ s.cap → s.cap < 2 ^ 64 →
      (PREV_BLK s s.brk = s.brk ∨
        (PREV_BLK s s.brk + 4 * WSIZE ≤ s.brk ∧
         FTRP s (PREV_BLK s s.brk) + WSIZE < s.brk ∧
         GET_ALLOC s (FTRP s (PREV_BLK s s.brk)) = 1)) →
      s.free_list_start + WSIZE < s.brk →
      (find_fit s asize).1 = some s.brk ∧
      GET_ALLOC (find_fit s asize).2 (HDRP s.brk) = 0 ∧
      GET_SIZE (find_fit s asize).2 (HDRP s.brk) = 2 * asize ∧
      max asize (4 * WSIZE) ≤ 2 * asize ∧
      (find_fit s asize).2.brk = s.brk + 2 * asize) := by
  refine ⟨?_, ?_, ?_⟩
  · intro h
    unfold find_fit
    by_cases h1 : s.last_malloced_size = toInt32 asize
    · rw [if_pos h1, if_neg (show ¬s.repeat_counter > 30 from
        fun hh => h ⟨h1, hh⟩)]
      rw [find_fit_walk_fst, firstFitSpec_counter_irrel]
    · rw [if_neg h1]
      rw [find_fit_walk_fst, firstFitSpec_counter_irrel]
  · intro h1 h2
    unfold find_fit
    rw [if_pos h1, if_pos h2]
  · intro h1 h2 hmod ha1 ha2 hbrk hb8 hcap hcapM hprev hfls
    have hpart2 : find_fit s asize =
        extend_heap s (intToSizeT (Int.tdiv (toInt32 (max asize (4 * WSIZE))) 4)) := by
      unfold find_fit
      rw [if_pos h1, if_pos h2]
    have ha32 : 32 ≤ asize := by simpa [WSIZE] using ha1
    have hmod16 : asize % 16 = 0 := by simpa [DSIZE] using hmod
    have hmax : max asize (4 * WSIZE) = asize := by
      simp only [WSIZE]
      omega
    have ht32 : toInt32 asize = (asize : Int) := by
      unfold toInt32
      simp only []
      rw [Nat.mod_eq_of_lt (show asize < 2 ^ 32 by omega),
        if_pos (show asize < 2 ^ 31 by omega)]
    have htdiv : Int.tdiv ((asize : Int)) 4 = ((asize / 4 : Nat) : Int) := rfl
    have hits : intToSizeT ((asize / 4 : Nat) : Int) = asize / 4 := by
      simp only [intToSizeT, M64]
      omega
    rw [hpart2, hmax, ht32, htdiv, hits]
    have hws : asize / 4 * WSIZE = 2 * asize := by
      simp only [WSIZE]
      omega
    obtain ⟨g1, g2, g3, g4, g5⟩ := extend_heap_fresh s (asize / 4)
      (by omega)
      (by simp only [WSIZE, DSIZE]; omega)
      (by simp only [WSIZE]; omega)
      hbrk hb8
      (by rw [hws] at *; exact hcap)
      hcapM hprev hfls
    rw [hws] at g2 g4
    refine ⟨g1, g3, g4, ?_, g2⟩
    omega

/-- The state after `init` followed by 32 calls `allocate(1)`: the stored
`last_malloced_size` is 32 and the repeat counter has climbed to 31. -/
def repeatPre : AState :=
  (List.range 32).foldl (fun st _ => (mm_malloc st 1).1) postInit

/-- Claim C9, counterexample.  In the reachable state `repeatPre` (32
identical one-byte allocations after init), calling `find_fit` with
`asize = 2^32 + 32` — the adjusted size of `allocate(2^32 + 16)` — escapes:
the stored 32-bit `last_malloced_size = 32` equals the truncation of
`2^32 + 32` even though the actual sizes differ, and the `int` truncation
of `extendsize` makes the escape extend by only 64 bytes, so `find_fit`
returns a 3168-byte block where the claim requires the first-fit walk
(which finds nothing, hence null), and the served block is far smaller than
`max(asize, 4 * WSIZE)`. -/
theorem C9_escape_truncation_counterexample :
    repeatPre.last_malloced_size = 32 ∧
    repeatPre.repeat_counter = 31 ∧
    asizeOf (2 ^ 32 + 16) = 2 ^ 32 + 32 ∧
    toInt32 (2 ^ 32 + 32) = 32 ∧
    (2 ^ 32 + 32 : Nat) ≠ 32 ∧
    firstFitSpec repeatPre (2 ^ 32 + 32) = none ∧
    (find_fit repeatPre (2 ^ 32 + 32)).1 = some 5184 ∧
    GET_SIZE (find_fit repeatPre (2 ^ 32 + 32)).2 (HDRP 5184) = 3168 ∧
    GET_SIZE (find_fit repeatPre (2 ^ 32 + 32)).2 (HDRP 5184) <
      max (2 ^ 32 + 32) (4 * WSIZE) := by
  decide

/-- The witness state for the amended escape: `init; allocate(1)` with the
static counters set to an escape-triggering configuration. -/
def c9wit : AState :=
  { (mm_malloc postInit 1).1 with
    last_malloced_size := toInt32 32, repeat_counter := 31 }

/-- Witness for `C9_find_fit_amended` at `c9wit` with `asize = 32`. -/
theorem C9_find_fit_witness :
    (find_fit c9wit 32).1 = some c9wit.brk ∧
    GET_ALLOC (find_fit c9wit 32).2 (HDRP c9wit.brk) = 0 ∧
    GET_SIZE (find_fit c9wit 32).2 (HDRP c9wit.brk) = 2 * 32 ∧
    max 32 (4 * WSIZE) ≤ 2 * 32 ∧
    (find_fit c9wit 32).2.brk = c9wit.brk + 2 * 32 :=
  (C9_find_fit_amended c9wit 32).2.2 (by decide) (by decide) (by decide)
    (by decide) (by decide) (by decide) (by decide) (by decide) (by decide)
    (by decide) (by decide)

/-- Witness for `C8_size_fields_amended`: instances of each conjunct at
concrete inputs. -/
theorem C8_size_fields_witness :
    GET_SIZE postInit (HDRP prologueBp) % DSIZE = 0 ∧
    (4 * WSIZE ≤ asizeOf 17 ∧ asizeOf 17 % DSIZE = 0) ∧
    (4 * WSIZE ≤ sizeField (PACK 33 1) ∧ sizeField (PACK 33 1) % DSIZE = 0) ∧
    (4 * WSIZE ≤ sizeField (PACK 47 0) ∧ sizeField (PACK 47 0) % DSIZE = 0) ∧
    4 * WSIZE < wadd 17 (2 * WSIZE) :=
  ⟨C8_size_fields_amended.1 postInit (HDRP prologueBp),
   C8_size_fields_amended.2.1 17 (by decide) (by decide),
   C8_size_fields_amended.2.2.1 33 (by decide),
   C8_size_fields_amended.2.2.2.1 47 (by decide),
   C8_size_fields_amended.2.2.2.2 17 32 (by decide) (by decide) (by decide)⟩

end MM
